import Mathlib

/-!
Shallow embedding of pyvsu.py (pyVSU-2 ROM programming and configuration
utility) and verification of its specification.

The serial link is modelled by `Serial`: `rx` is the stream of bytes the
device will send to the host, and `log` is the ordered trace of observable
link events performed by the host (bytes transmitted, reads performed, and
the settling-delay sleep).  Python exceptions are modelled with `Except`;
stateful functions return `Except PyError α × Serial` so that wire effects
performed before an exception remain visible, exactly as in Python.
Sector indices are `Nat`, matching every call site of the script (loop
counters `range(256)`, slot arithmetic on argparse choices `range(7)`, and
the literal sectors 0 and 1).
-/

set_option maxRecDepth 16384

/-- One observable event on the serial link: a transmission of bytes to the
device, a read returning the given bytes, or the settling-delay sleep
(`time.sleep(.01)` in the source). -/
inductive Event where
  | tx (bs : List Nat)
  | rx (bs : List Nat)
  | sleep
deriving DecidableEq, Repr

/-- The serial-link state: `rx` holds the bytes still available to be read
from the device, `log` the trace of events performed so far. -/
structure Serial where
  rx : List Nat
  log : List Event
deriving DecidableEq, Repr

/-- The exceptions the script can raise, one constructor per `Exception`
subclass of pyvsu.py, plus Python's built-in `ValueError` (raised by
`bytes`/`bytearray` on an out-of-range value) and the `exit()` calls
(which print a message and terminate). -/
inductive PyError where
  | WriteSectorException (sector : Nat)
  | ReadSectorException (sector : Nat)
  | IncompleteDataException (length : Nat)
  | ValueError
  | SystemExit
deriving DecidableEq, Repr

/-- `vsu_rom.write`: append a transmission event to the log. -/
def serialWrite (bs : List Nat) (s : Serial) : Serial :=
  ⟨s.rx, s.log ++ [Event.tx bs]⟩

/-- `vsu_rom.read(n)`: return up to `n` bytes from the device stream
(pySerial returns fewer on timeout; a finite `rx` models that) and log the
read. -/
def serialRead (n : Nat) (s : Serial) : List Nat × Serial :=
  (s.rx.take n, ⟨s.rx.drop n, s.log ++ [Event.rx (s.rx.take n)]⟩)

/-- `time.sleep`: log the settling delay. -/
def serialSleep (s : Serial) : Serial :=
  ⟨s.rx, s.log ++ [Event.sleep]⟩

/-- Python's `bytes([...])` constructor: succeeds iff every value is a
byte, otherwise raises `ValueError`. -/
def pyBytes (vals : List Nat) : Except PyError (List Nat) :=
  if vals.all (fun v => decide (v < 256)) then Except.ok vals
  else Except.error PyError.ValueError

/-- `read_sector(sector)` (pyvsu.py lines 133-145): transmit the command
`bytes([114, sector])` (`0x72` = ASCII r), read 256 data bytes, read 1
acknowledgment byte, and fail with `ReadSectorException(sector)` unless the
acknowledgment equals `b'+'` (byte 43, `0x2B`). -/
def read_sector (sector : Nat) (s : Serial) : Except PyError (List Nat) × Serial :=
  match pyBytes [114, sector] with
  | Except.error e => (Except.error e, s)
  | Except.ok cmd =>
    let s := serialWrite cmd s
    let p := serialRead 256 s
    let sector_data := p.1
    let q := serialRead 1 p.2
    if q.1 ≠ [43] then (Except.error (PyError.ReadSectorException sector), q.2)
    else (Except.ok sector_data, q.2)

/-- `write_sector(sector, data)` (pyvsu.py lines 147-173): silently return
when `sector == 0 or sector >= 256`; raise `IncompleteDataException` when
`len(data) != 256`; otherwise transmit `bytes([119, sector])` (`0x77` =
ASCII w) and the data, sleep the 10ms settling delay, read the 1-byte
acknowledgment (raising `WriteSectorException(sector)` unless it is `b'+'`),
then read the sector back and raise `WriteSectorException(sector)` when the
read-back differs from `data`. -/
def write_sector (sector : Nat) (data : List Nat) (s : Serial) :
    Except PyError Unit × Serial :=
  if sector = 0 ∨ 256 ≤ sector then (Except.ok (), s)
  else if data.length ≠ 256 then
    (Except.error (PyError.IncompleteDataException data.length), s)
  else
    match pyBytes [119, sector] with
    | Except.error e => (Except.error e, s)
    | Except.ok cmd =>
      let s := serialWrite cmd s
      let s := serialWrite data s
      let s := serialSleep s
      let p := serialRead 1 s
      if p.1 ≠ [43] then (Except.error (PyError.WriteSectorException sector), p.2)
      else
        match read_sector sector p.2 with
        | (Except.error e, s) => (Except.error e, s)
        | (Except.ok rb, s) =>
          if rb ≠ data then (Except.error (PyError.WriteSectorException sector), s)
          else (Except.ok (), s)

/-- A `for x in xs: write_sector(f(x), data(x))` loop, aborting on the first
exception, as in `write_image` (lines 194-196) and `write_rom`
(lines 202-203). -/
def write_loop (xs : List Nat) (f : Nat → Nat) (data : Nat → List Nat)
    (s : Serial) : Except PyError Unit × Serial :=
  match xs with
  | [] => (Except.ok (), s)
  | x :: rest =>
    match write_sector (f x) (data x) s with
    | (Except.ok _, s) => write_loop rest f data s
    | (Except.error e, s) => (Except.error e, s)

/-- `write_image(filename)` (pyvsu.py lines 185-196), with the file's
contents passed as `image_data`: reject (print an error and `exit()`) any
image whose length is not 65536, otherwise write sectors 0..255 in order
from consecutive 256-byte slices of the image. -/
def write_image (image_data : List Nat) (s : Serial) :
    Except PyError Unit × Serial :=
  if image_data.length ≠ 65536 then (Except.error PyError.SystemExit, s)
  else write_loop (List.range 256) (fun x => x)
    (fun x => (image_data.drop (x * 256)).take 256) s

/-- `write_rom(sector, data)` (pyvsu.py lines 198-203): write the 16
sectors `sector .. sector+15` in order from the slices
`data[x*256:(x*256)+256]`. -/
def write_rom (sector : Nat) (data : List Nat) (s : Serial) :
    Except PyError Unit × Serial :=
  write_loop (List.range 16) (fun x => sector + x)
    (fun x => (data.drop (x * 256)).take 256) s

/-- The slot kind selected by the mutually exclusive `-g`/`-c` options. -/
inductive SlotKind where
  | game
  | custom
deriving DecidableEq, Repr

/-- The start-sector computation of the module-level game/custom dispatch
(pyvsu.py lines 301-309): offset 2 for the factory/user sectors, 16 sectors
per slot, and custom slots a further 112 sectors after all games. -/
def slot_sector (kind : SlotKind) (index : Nat) : Nat :=
  match kind with
  | SlotKind.game => 2 + index * 16
  | SlotKind.custom => 2 + index * 16 + 112

/-- The 16-sector range occupied by a slot. -/
def slot_range (kind : SlotKind) (index : Nat) : Finset Nat :=
  Finset.Ico (slot_sector kind index) (slot_sector kind index + 16)

/-- The ROM-size normalization of the module-level dispatch (pyvsu.py
lines 316-322): a 2048-byte ROM is padded with 2048 `0xFF` bytes; any
result other than 4096 bytes is rejected (print an error and `exit()`). -/
def normalize_rom (rom_data : List Nat) : Except PyError (List Nat) :=
  let rom_data :=
    if rom_data.length = 2048 then rom_data ++ List.replicate 2048 255
    else rom_data
  if rom_data.length ≠ 4096 then Except.error PyError.SystemExit
  else Except.ok rom_data

/-- The whole `-g`/`-c` branch of the module-level dispatch (pyvsu.py
lines 301-324): compute the start sector, normalize the concatenated ROM
bytes, and call `write_rom`. -/
def program_rom (kind : SlotKind) (index : Nat) (rom_data : List Nat)
    (s : Serial) : Except PyError Unit × Serial :=
  let sector := slot_sector kind index
  match normalize_rom rom_data with
  | Except.error e => (Except.error e, s)
  | Except.ok rom => write_rom sector rom s

/-- A `bytearray` item assignment `arr[i] = v` with `v` an integer:
raises `ValueError` unless `0 ≤ v < 256`. -/
def bytearray_set (arr : List Nat) (i : Nat) (v : Int) :
    Except PyError (List Nat) :=
  if 0 ≤ v ∧ v < 256 then Except.ok (arr.set i v.toNat)
  else Except.error PyError.ValueError

/-- The `for x in range(8)` loop of `update_configuration` (pyvsu.py
lines 269-271): store `conf['volume'][str(x)]` at offset `x` and
`conf['sample_rate'][str(x)]` at offset `x+8`. -/
def conf_loop (xs : List Nat) (vol spd : Nat → Int) (arr : List Nat) :
    Except PyError (List Nat) :=
  match xs with
  | [] => Except.ok arr
  | x :: rest =>
    match bytearray_set arr x (vol x) with
    | Except.error e => Except.error e
    | Except.ok arr =>
      match bytearray_set arr (x + 8) (spd x) with
      | Except.error e => Except.error e
      | Except.ok arr => conf_loop rest vol spd arr

/-- Building the user-configuration sector in `update_configuration`
(pyvsu.py lines 268-271): start from `bytearray(b'\xff'*256)` and run the
assignment loop.  `vol x` models `conf['volume'][str(x)]` and `spd x`
models `conf['sample_rate'][str(x)]`. -/
def encode_configuration (vol spd : Nat → Int) : Except PyError (List Nat) :=
  conf_loop (List.range 8) vol spd (List.replicate 256 255)

/-- The volume part of the decoding in `display_configuration` (pyvsu.py
line 255): `user[0:8]`. -/
def decode_user_volume (user : List Nat) : List Nat :=
  user.take 8

/-- The sample-rate part of the decoding in `display_configuration`
(pyvsu.py line 254): `user[8:16]`. -/
def decode_user_speed (user : List Nat) : List Nat :=
  (user.drop 8).take 8

/-- `display_configuration` (pyvsu.py lines 205-260), restricted to its
link and data effects: read the factory sector 0 and the user sector 1 and
decode the user volume and sample-rate bytes (the printed table and the
optional JSON file are presentation). -/
def display_configuration (s : Serial) :
    Except PyError (List Nat × List Nat) × Serial :=
  match read_sector 0 s with
  | (Except.error e, s) => (Except.error e, s)
  | (Except.ok _, s) =>
    match read_sector 1 s with
    | (Except.error e, s) => (Except.error e, s)
    | (Except.ok user, s) =>
      (Except.ok (decode_user_volume user, decode_user_speed user), s)

/-- `update_configuration(conf_file)` (pyvsu.py lines 262-274), with the
parsed JSON passed as the maps `vol` and `spd`: build the sector buffer,
write it to sector 1, then run `display_configuration`. -/
def update_configuration (vol spd : Nat → Int) (s : Serial) :
    Except PyError Unit × Serial :=
  match encode_configuration vol spd with
  | Except.error e => (Except.error e, s)
  | Except.ok sector_data =>
    match write_sector 1 sector_data s with
    | (Except.error e, s) => (Except.error e, s)
    | (Except.ok _, s) =>
      match display_configuration s with
      | (Except.error e, s) => (Except.error e, s)
      | (Except.ok _, s) => (Except.ok (), s)

/-- Extract the sector number from a sector-write command transmission
`tx [119, n]`; any other event, and in particular the 256-byte data
transmissions, yields none. -/
def sector_write_of (e : Event) : Option Nat :=
  match e with
  | Event.tx l =>
    match l with
    | [w, n] => if w = 119 then some n else none
    | _ => none
  | _ => none

/-- The sequence of sector-write commands issued on the link, in order. -/
def writes_issued (log : List Event) : List Nat :=
  log.filterMap sector_write_of

/-- The device-response stream under which every sector write of the loop
succeeds: for each loop counter `x`, an acknowledgment byte 43, the 256
bytes of `data x` echoed back by the verification read, and its
acknowledgment byte 43. -/
def successRx (xs : List Nat) (data : Nat → List Nat) : List Nat :=
  (xs.map (fun x => 43 :: (data x ++ [43]))).flatten

/-- The event trace produced by a fully successful write loop. -/
def successEvents (xs : List Nat) (f : Nat → Nat) (data : Nat → List Nat) :
    List Event :=
  (xs.map (fun x =>
    [Event.tx [119, f x], Event.tx (data x), Event.sleep, Event.rx [43],
     Event.tx [114, f x], Event.rx (data x), Event.rx [43]])).flatten

lemma read_sector_eq (sector : Nat) (s : Serial) (h : sector < 256) :
    read_sector sector s =
      (if (s.rx.drop 256).take 1 = [43] then Except.ok (s.rx.take 256)
       else Except.error (PyError.ReadSectorException sector),
       ⟨s.rx.drop 257,
        s.log ++ [Event.tx [114, sector], Event.rx (s.rx.take 256),
          Event.rx ((s.rx.drop 256).take 1)]⟩) := by
  have hb : pyBytes [114, sector] = Except.ok [114, sector] := by
    simp [pyBytes, h]
  simp only [read_sector, hb, serialWrite, serialRead]
  by_cases hc : (s.rx.drop 256).take 1 = [43]
  · simp [hc, List.drop_drop, List.append_assoc]
  · simp [hc, List.drop_drop, List.append_assoc]

lemma write_sector_ok (sector : Nat) (data rest : List Nat) (log0 : List Event)
    (h1 : sector ≠ 0) (h2 : sector < 256) (h3 : data.length = 256) :
    write_sector sector data ⟨43 :: (data ++ 43 :: rest), log0⟩ =
      (Except.ok (),
       ⟨rest, log0 ++ [Event.tx [119, sector], Event.tx data, Event.sleep,
         Event.rx [43], Event.tx [114, sector], Event.rx data, Event.rx [43]]⟩) := by
  have hg : ¬(sector = 0 ∨ 256 ≤ sector) := by omega
  have hb : pyBytes [119, sector] = Except.ok [119, sector] := by
    simp [pyBytes, h2]
  simp only [write_sector, if_neg hg, hb, serialWrite, serialSleep, serialRead]
  rw [if_neg (by simp [h3])]
  simp only [List.take_succ_cons, List.take_zero, List.drop_succ_cons,
    List.drop_zero]
  rw [if_neg (by simp)]
  rw [read_sector_eq sector _ h2]
  have hd : (data ++ 43 :: rest).drop 256 = 43 :: rest := List.drop_left' h3
  have ht : (data ++ 43 :: rest).take 256 = data := List.take_left' h3
  have hd2 : (data ++ 43 :: rest).drop 257 = rest := by
    have : ((data ++ 43 :: rest).drop 256).drop 1 = rest := by
      rw [hd]
      rfl
    rw [List.drop_drop] at this
    simpa using this
  simp [hd, ht, hd2, List.append_assoc]

lemma write_loop_all_ok (f : Nat → Nat) (dataf : Nat → List Nat) :
    ∀ (xs : List Nat) (rest : List Nat) (log0 : List Event),
    (∀ x ∈ xs, f x ≠ 0 ∧ f x < 256 ∧ (dataf x).length = 256) →
    write_loop xs f dataf ⟨successRx xs dataf ++ rest, log0⟩ =
      (Except.ok (), ⟨rest, log0 ++ successEvents xs f dataf⟩) := by
  intro xs
  induction xs with
  | nil =>
    intro rest log0 h
    simp [write_loop, successRx, successEvents]
  | cons x xs ih =>
    intro rest log0 h
    have hx := h x (by simp)
    have hsrx : successRx (x :: xs) dataf ++ rest =
        43 :: (dataf x ++ 43 :: (successRx xs dataf ++ rest)) := by
      simp [successRx, List.append_assoc]
    rw [show (⟨successRx (x :: xs) dataf ++ rest, log0⟩ : Serial) =
        ⟨43 :: (dataf x ++ 43 :: (successRx xs dataf ++ rest)), log0⟩ from by
      rw [hsrx]]
    simp only [write_loop]
    rw [write_sector_ok (f x) (dataf x) _ log0 hx.1 hx.2.1 hx.2.2]
    dsimp only
    rw [ih _ _ (fun y hy => h y (by simp [hy]))]
    simp [successEvents, List.append_assoc]

lemma write_sector_eq (sector : Nat) (data : List Nat) (s : Serial)
    (h1 : sector ≠ 0) (h2 : sector < 256) (h3 : data.length = 256) :
    write_sector sector data s =
      if s.rx.take 1 ≠ [43] then
        (Except.error (PyError.WriteSectorException sector),
         ⟨s.rx.drop 1, s.log ++ [Event.tx [119, sector], Event.tx data,
           Event.sleep, Event.rx (s.rx.take 1)]⟩)
      else if ((s.rx.drop 1).drop 256).take 1 ≠ [43] then
        (Except.error (PyError.ReadSectorException sector),
         ⟨(s.rx.drop 1).drop 257, s.log ++ [Event.tx [119, sector],
           Event.tx data, Event.sleep, Event.rx [43], Event.tx [114, sector],
           Event.rx ((s.rx.drop 1).take 256),
           Event.rx (((s.rx.drop 1).drop 256).take 1)]⟩)
      else if (s.rx.drop 1).take 256 ≠ data then
        (Except.error (PyError.WriteSectorException sector),
         ⟨(s.rx.drop 1).drop 257, s.log ++ [Event.tx [119, sector],
           Event.tx data, Event.sleep, Event.rx [43], Event.tx [114, sector],
           Event.rx ((s.rx.drop 1).take 256), Event.rx [43]]⟩)
      else
        (Except.ok (),
         ⟨(s.rx.drop 1).drop 257, s.log ++ [Event.tx [119, sector],
           Event.tx data, Event.sleep, Event.rx [43], Event.tx [114, sector],
           Event.rx ((s.rx.drop 1).take 256), Event.rx [43]]⟩) := by
  have hg : ¬(sector = 0 ∨ 256 ≤ sector) := by omega
  have hb : pyBytes [119, sector] = Except.ok [119, sector] := by
    simp [pyBytes, h2]
  simp only [write_sector, if_neg hg, hb, serialWrite, serialSleep, serialRead]
  rw [if_neg (by simp [h3])]
  by_cases hack : s.rx.take 1 = [43]
  · rw [if_neg (by simp [hack]), if_neg (by simp [hack]),
      read_sector_eq sector _ h2]
    dsimp only
    by_cases hack2 : ((s.rx.drop 1).drop 256).take 1 = [43]
    · have hack2' : List.take 1 (List.drop 257 s.rx) = [43] := by
        simpa using hack2
      rw [if_pos hack2, if_neg (by simpa using hack2)]
      dsimp only
      by_cases hrb : (s.rx.drop 1).take 256 = data
      · rw [if_neg (by simpa using hrb), if_neg (by simpa using hrb)]
        simp [hack, hack2', hrb, List.append_assoc]
      · rw [if_pos (by simpa using hrb), if_pos (by simpa using hrb)]
        simp [hack, hack2', List.append_assoc]
    · rw [if_neg hack2, if_pos (by simpa using hack2)]
      dsimp only
      simp [hack, List.append_assoc]
  · rw [if_pos (by simp [hack]), if_pos (by simp [hack])]
    simp [List.append_assoc]

lemma sector_write_of_long (l : List Nat) (h : l.length = 256) :
    sector_write_of (Event.tx l) = none := by
  rcases l with _ | ⟨a, l⟩
  · simp at h
  rcases l with _ | ⟨b, l⟩
  · simp at h
  rcases l with _ | ⟨c, l⟩
  · simp at h
  rfl

lemma sector_write_of_cmd (w n : Nat) :
    sector_write_of (Event.tx [w, n]) = if w = 119 then some n else none := rfl

lemma sector_write_of_rx (l : List Nat) :
    sector_write_of (Event.rx l) = none := rfl

lemma sector_write_of_sleep : sector_write_of Event.sleep = none := rfl

lemma writes_issued_successEvents (f : Nat → Nat) (dataf : Nat → List Nat) :
    ∀ xs : List Nat, (∀ x ∈ xs, (dataf x).length = 256) →
    writes_issued (successEvents xs f dataf) = xs.map f := by
  intro xs
  induction xs with
  | nil =>
    intro h
    simp [writes_issued, successEvents]
  | cons x xs ih =>
    intro h
    have hx := h x (by simp)
    have ihx := ih (fun y hy => h y (by simp [hy]))
    simp only [successEvents, writes_issued, List.map_cons, List.flatten_cons,
      List.filterMap_append, List.filterMap_cons, sector_write_of_cmd,
      sector_write_of_rx, sector_write_of_sleep, sector_write_of_long _ hx]
    simp only [successEvents, writes_issued] at ihx
    simp [ihx]

lemma conf_loop_cons (x : Nat) (xs : List Nat) (vol spd : Nat → Int)
    (arr : List Nat) (hv : 0 ≤ vol x ∧ vol x < 256)
    (hs : 0 ≤ spd x ∧ spd x < 256) :
    conf_loop (x :: xs) vol spd arr =
      conf_loop xs vol spd ((arr.set x (vol x).toNat).set (x + 8) (spd x).toNat) := by
  simp [conf_loop, bytearray_set, hv, hs]

lemma encode_configuration_eq (vol spd : Nat → Int)
    (hv : ∀ x, x < 8 → 0 ≤ vol x ∧ vol x < 256)
    (hs : ∀ x, x < 8 → 0 ≤ spd x ∧ spd x < 256) :
    encode_configuration vol spd = Except.ok
      (((List.range 8).map (fun x => (vol x).toNat)) ++
       ((List.range 8).map (fun x => (spd x).toNat)) ++
       List.replicate 240 255) := by
  simp only [encode_configuration]
  rw [show List.range 8 = [0, 1, 2, 3, 4, 5, 6, 7] from rfl]
  rw [conf_loop_cons 0 _ _ _ _ (hv 0 (by norm_num)) (hs 0 (by norm_num)),
    conf_loop_cons 1 _ _ _ _ (hv 1 (by norm_num)) (hs 1 (by norm_num)),
    conf_loop_cons 2 _ _ _ _ (hv 2 (by norm_num)) (hs 2 (by norm_num)),
    conf_loop_cons 3 _ _ _ _ (hv 3 (by norm_num)) (hs 3 (by norm_num)),
    conf_loop_cons 4 _ _ _ _ (hv 4 (by norm_num)) (hs 4 (by norm_num)),
    conf_loop_cons 5 _ _ _ _ (hv 5 (by norm_num)) (hs 5 (by norm_num)),
    conf_loop_cons 6 _ _ _ _ (hv 6 (by norm_num)) (hs 6 (by norm_num)),
    conf_loop_cons 7 _ _ _ _ (hv 7 (by norm_num)) (hs 7 (by norm_num))]
  rfl




lemma conf_loop_ok_bounds :
    ∀ (xs : List Nat) (vol spd : Nat → Int) (arr arr2 : List Nat),
    conf_loop xs vol spd arr = Except.ok arr2 →
    ∀ x ∈ xs, (0 ≤ vol x ∧ vol x < 256) ∧ (0 ≤ spd x ∧ spd x < 256) := by
  intro xs
  induction xs with
  | nil =>
    intro vol spd arr arr2 h x hx
    simp at hx
  | cons x xs ih =>
    intro vol spd arr arr2 h y hy
    by_cases hv : 0 ≤ vol x ∧ vol x < 256
    · by_cases hs : 0 ≤ spd x ∧ spd x < 256
      · rw [conf_loop_cons x xs vol spd arr hv hs] at h
        rcases List.mem_cons.mp hy with rfl | hy2
        · exact ⟨hv, hs⟩
        · exact ih vol spd _ arr2 h y hy2
      · exfalso
        simp [conf_loop, bytearray_set, hv, hs] at h
    · exfalso
      simp [conf_loop, bytearray_set, hv] at h

lemma conf_loop_cases :
    ∀ (xs : List Nat) (vol spd : Nat → Int) (arr : List Nat),
    (∃ r, conf_loop xs vol spd arr = Except.ok r) ∨
    conf_loop xs vol spd arr = Except.error PyError.ValueError := by
  intro xs
  induction xs with
  | nil =>
    intro vol spd arr
    exact Or.inl ⟨arr, rfl⟩
  | cons x xs ih =>
    intro vol spd arr
    by_cases hv : 0 ≤ vol x ∧ vol x < 256
    · by_cases hs : 0 ≤ spd x ∧ spd x < 256
      · rw [conf_loop_cons x xs vol spd arr hv hs]
        exact ih vol spd _
      · right
        simp [conf_loop, bytearray_set, hv, hs]
    · right
      simp [conf_loop, bytearray_set, hv]

/-- C1 counterexample: with sector index 0 and the empty (length-0) data
argument, `write_sector` raises nothing at all — it returns normally with
the link untouched — contradicting the claim that a length-mismatched data
argument raises `IncompleteDataException` even for sector 0.  In the source
the zero-sector guard (line 152) runs before the length check (line 154). -/
theorem write_sector_zero_short_data_ce :
    write_sector 0 [] ⟨[], []⟩ = (Except.ok (), ⟨[], []⟩) ∧
    (write_sector 0 [] ⟨[], []⟩).1 ≠
      Except.error (PyError.IncompleteDataException 0) := by
  constructor
  · rfl
  · simp [write_sector]

/-- C1 (amended): for every data argument whose length is not 256, calling
`write_sector` with sector index 0 is a silent no-op — it raises nothing,
transmits nothing, and leaves the link state unchanged — because the
zero-sector no-op check runs before the length validation. -/
theorem write_sector_zero_short_data (d : List Nat) (s : Serial)
    (_h : d.length ≠ 256) :
    write_sector 0 d s = (Except.ok (), s) := by
  simp [write_sector]

/-- C1 witness: the amended theorem at length-3 data on a non-trivial
link state. -/
theorem write_sector_zero_short_data_witness :
    ([1, 2, 3] : List Nat).length ≠ 256 ∧
    write_sector 0 [1, 2, 3] ⟨[5], [Event.sleep]⟩ =
      (Except.ok (), ⟨[5], [Event.sleep]⟩) :=
  ⟨by decide, write_sector_zero_short_data [1, 2, 3] ⟨[5], [Event.sleep]⟩ (by decide)⟩

/-- C2: for every index outside the writable range (0, or at least 256 —
sector indices are naturals at every call site) and every 256-byte data
argument, `write_sector` is a silent no-op: it transmits nothing, raises
nothing, and returns normally with the link state unchanged. -/
theorem write_sector_invalid_index_noop (sector : Nat) (d : List Nat)
    (s : Serial) (h : sector = 0 ∨ 256 ≤ sector) (_hd : d.length = 256) :
    write_sector sector d s = (Except.ok (), s) := by
  unfold write_sector
  rw [if_pos h]

/-- C2 witness: sector 256 with a 256-byte payload. -/
theorem write_sector_invalid_index_noop_witness :
    ((256 : Nat) = 0 ∨ 256 ≤ (256 : Nat)) ∧
    (List.replicate 256 (0 : Nat)).length = 256 ∧
    write_sector 256 (List.replicate 256 0) ⟨[43], []⟩ =
      (Except.ok (), ⟨[43], []⟩) :=
  ⟨Or.inr (by norm_num), by simp,
   write_sector_invalid_index_noop 256 (List.replicate 256 0) ⟨[43], []⟩
     (Or.inr (by norm_num)) (by simp)⟩

/-- C5: for all slot indices `i, j ≤ 6`, the 16-sector range of game slot
`i` is disjoint from the 16-sector range of custom slot `j`, and both
ranges lie entirely within sectors 2–255. -/
theorem slot_ranges_disjoint (i j : Nat) (hi : i ≤ 6) (hj : j ≤ 6) :
    Disjoint (slot_range SlotKind.game i) (slot_range SlotKind.custom j) ∧
    (∀ n ∈ slot_range SlotKind.game i, 2 ≤ n ∧ n ≤ 255) ∧
    (∀ n ∈ slot_range SlotKind.custom j, 2 ≤ n ∧ n ≤ 255) := by
  refine ⟨?_, ?_, ?_⟩
  · rw [Finset.disjoint_left]
    intro n hn hn2
    simp only [slot_range, slot_sector, Finset.mem_Ico] at hn hn2
    omega
  · intro n hn
    simp only [slot_range, slot_sector, Finset.mem_Ico] at hn
    omega
  · intro n hn
    simp only [slot_range, slot_sector, Finset.mem_Ico] at hn
    omega

/-- C5 witness: game slot 6 against custom slot 0 (the adjacent pair). -/
theorem slot_ranges_disjoint_witness :
    (6 : Nat) ≤ 6 ∧ (0 : Nat) ≤ 6 ∧
    (Disjoint (slot_range SlotKind.game 6) (slot_range SlotKind.custom 0) ∧
     (∀ n ∈ slot_range SlotKind.game 6, 2 ≤ n ∧ n ≤ 255) ∧
     (∀ n ∈ slot_range SlotKind.custom 0, 2 ≤ n ∧ n ≤ 255)) :=
  ⟨by norm_num, by norm_num, slot_ranges_disjoint 6 0 (by norm_num) (by norm_num)⟩

/-- C6: ROM length normalization — a 2048-byte input yields 4096 bytes
whose first 2048 bytes are the input and whose last 2048 bytes are all
`0xFF`; a 4096-byte input is returned unchanged; any other length is
rejected, and in that case `program_rom` fails with the link state
untouched, so no sector write is ever attempted. -/
theorem normalize_rom_spec (rom : List Nat) :
    (rom.length = 2048 →
      normalize_rom rom = Except.ok (rom ++ List.replicate 2048 255) ∧
      (rom ++ List.replicate 2048 255).take 2048 = rom ∧
      (rom ++ List.replicate 2048 255).drop 2048 = List.replicate 2048 255) ∧
    (rom.length = 4096 → normalize_rom rom = Except.ok rom) ∧
    (rom.length ≠ 2048 → rom.length ≠ 4096 →
      normalize_rom rom = Except.error PyError.SystemExit ∧
      ∀ (kind : SlotKind) (index : Nat) (s : Serial),
        program_rom kind index rom s = (Except.error PyError.SystemExit, s)) := by
  refine ⟨?_, ?_, ?_⟩
  · intro h
    refine ⟨?_, List.take_left' h, List.drop_left' h⟩
    simp [normalize_rom, h]
  · intro h
    simp [normalize_rom, h]
  · intro h2 h4
    have he : normalize_rom rom = Except.error PyError.SystemExit := by
      simp [normalize_rom, h2, h4]
    exact ⟨he, fun kind index s => by simp [program_rom, he]⟩

/-- C6 witness: a 2048-byte all-zero ROM is padded, a 4096-byte one kept,
and a 100-byte one rejected with no link activity. -/
theorem normalize_rom_spec_witness :
    ((List.replicate 2048 (0 : Nat)).length = 2048 ∧
      normalize_rom (List.replicate 2048 0) =
        Except.ok (List.replicate 2048 0 ++ List.replicate 2048 255) ∧
      (List.replicate 2048 (0 : Nat) ++ List.replicate 2048 255).take 2048 =
        List.replicate 2048 0 ∧
      (List.replicate 2048 (0 : Nat) ++ List.replicate 2048 255).drop 2048 =
        List.replicate 2048 255) ∧
    ((List.replicate 100 (7 : Nat)).length ≠ 2048 ∧
      (List.replicate 100 (7 : Nat)).length ≠ 4096 ∧
      program_rom SlotKind.game 0 (List.replicate 100 7) ⟨[], []⟩ =
        (Except.error PyError.SystemExit, ⟨[], []⟩)) :=
  ⟨⟨by simp, (normalize_rom_spec (List.replicate 2048 0)).1 (by simp)⟩,
   by simp,
   by simp,
   ((normalize_rom_spec (List.replicate 100 7)).2.2 (by simp) (by simp)).2
     SlotKind.game 0 ⟨[], []⟩⟩

/-- C10: if any supplied configuration value — volume or sample-rate
divisor for any channel `x < 8` — is not a byte in 0–255, then
`update_configuration` fails with `ValueError` while building the sector
buffer and the link state is returned unchanged: no write command is
transmitted and the user-configuration sector is untouched. -/
theorem update_configuration_rejects_non_byte (vol spd : Nat → Int)
    (s : Serial) (x : Nat) (hx : x < 8)
    (hbad : vol x < 0 ∨ 256 ≤ vol x ∨ spd x < 0 ∨ 256 ≤ spd x) :
    update_configuration vol spd s = (Except.error PyError.ValueError, s) := by
  have he : encode_configuration vol spd = Except.error PyError.ValueError := by
    rcases conf_loop_cases (List.range 8) vol spd (List.replicate 256 255) with
      ⟨r, hr⟩ | he
    · exfalso
      have hb := conf_loop_ok_bounds (List.range 8) vol spd
        (List.replicate 256 255) r hr x (by simp [List.mem_range]; omega)
      omega
    · exact he
  simp [update_configuration, encode_configuration] at he ⊢
  simp [he]

/-- C10 witness: volume value 256 on channel 0 is rejected atomically. -/
theorem update_configuration_rejects_non_byte_witness :
    (0 : Nat) < 8 ∧
    update_configuration (fun _ => (256 : Int)) (fun _ => (0 : Int))
      ⟨[1, 2], [Event.sleep]⟩ =
      (Except.error PyError.ValueError, ⟨[1, 2], [Event.sleep]⟩) :=
  ⟨by norm_num,
   update_configuration_rejects_non_byte (fun _ => (256 : Int))
     (fun _ => (0 : Int)) ⟨[1, 2], [Event.sleep]⟩ 0 (by norm_num)
     (by norm_num)⟩

/-- C4: `read_sector` transmits the 2-byte command `[0x72, index]`
(114 = `0x72`), reads 256 response bytes and then 1 acknowledgment byte,
succeeds exactly when the acknowledgment byte equals the success marker 43
(`0x2B`, ASCII `+`) and then returns exactly 256 bytes, and fails with
`ReadSectorException index` otherwise — in particular whenever the device
supplied fewer than 256 data bytes, since the acknowledgment read then
cannot return the marker. -/
theorem read_sector_protocol (sector : Nat) (s : Serial) (h : sector < 256) :
    read_sector sector s =
      (if (s.rx.drop 256).take 1 = [43] then Except.ok (s.rx.take 256)
       else Except.error (PyError.ReadSectorException sector),
       ⟨s.rx.drop 257, s.log ++ [Event.tx [114, sector],
         Event.rx (s.rx.take 256), Event.rx ((s.rx.drop 256).take 1)]⟩) ∧
    (∀ d, (read_sector sector s).1 = Except.ok d → d.length = 256) ∧
    (s.rx.length < 257 →
      (read_sector sector s).1 =
        Except.error (PyError.ReadSectorException sector)) := by
  have heq := read_sector_eq sector s h
  refine ⟨heq, ?_, ?_⟩
  · intro d hd
    rw [heq] at hd
    dsimp only at hd
    by_cases hc : (s.rx.drop 256).take 1 = [43]
    · rw [if_pos hc] at hd
      have hne : s.rx.drop 256 ≠ [] := by
        intro h0
        rw [h0] at hc
        simp at hc
      have hlen : 257 ≤ s.rx.length := by
        have := List.length_drop 256 s.rx
        rcases Nat.lt_or_ge s.rx.length 257 with hlt | hge
        · exfalso
          apply hne
          have : s.rx.length - 256 = 0 := by omega
          exact List.eq_nil_of_length_eq_zero (by omega)
        · exact hge
      have hd2 : d = s.rx.take 256 := by
        cases hd
        rfl
      rw [hd2]
      simp [List.length_take]
      omega
    · rw [if_neg hc] at hd
      cases hd
  · intro hlen
    rw [heq]
    dsimp only
    rw [if_neg]
    intro hc
    have hl := congrArg List.length hc
    simp [List.length_take, List.length_drop] at hl
    omega

/-- C4 witness: sector 9 with a device that answers with 256 zero bytes
and a correct acknowledgment, and implicitly (via the conjunction) the
failure conjuncts at the same instance. -/
theorem read_sector_protocol_witness :
    (9 : Nat) < 256 ∧
    read_sector 9 ⟨List.replicate 256 0 ++ [43], []⟩ =
      (Except.ok (List.replicate 256 0),
       ⟨[], [Event.tx [114, 9], Event.rx (List.replicate 256 0),
         Event.rx [43]]⟩) := by
  refine ⟨by norm_num, ?_⟩
  have h := (read_sector_protocol 9 ⟨List.replicate 256 0 ++ [43], []⟩
    (by norm_num)).1
  rw [h]
  have hlen : (List.replicate 256 (0 : Nat)).length = 256 := by simp
  rw [List.take_left' hlen, List.drop_left' hlen]
  simp

/-- C7: for a valid nonzero sector index and 256-byte data, `write_sector`
transmits the write command `[0x77, index]` and the data, performs the
settling sleep strictly before reading the single acknowledgment byte
(the event trace ends `... tx data, sleep, rx ack`), fails with
`WriteSectorException index` when the acknowledgment is not the marker 43;
otherwise it reads the sector back, fails with `WriteSectorException index`
when a well-formed read-back differs from the data, succeeds when the
read-back equals the data, and in every case a successful return implies
the bytes read back equal the data written. -/
theorem write_sector_protocol (sector : Nat) (data : List Nat) (s : Serial)
    (h1 : sector ≠ 0) (h2 : sector < 256) (h3 : data.length = 256) :
    (s.rx.take 1 ≠ [43] →
      write_sector sector data s =
        (Except.error (PyError.WriteSectorException sector),
         ⟨s.rx.drop 1, s.log ++ [Event.tx [119, sector], Event.tx data,
           Event.sleep, Event.rx (s.rx.take 1)]⟩)) ∧
    (∀ rb rest, s.rx = 43 :: (rb ++ 43 :: rest) → rb.length = 256 →
      rb ≠ data →
      write_sector sector data s =
        (Except.error (PyError.WriteSectorException sector),
         ⟨rest, s.log ++ [Event.tx [119, sector], Event.tx data, Event.sleep,
           Event.rx [43], Event.tx [114, sector], Event.rx rb,
           Event.rx [43]]⟩)) ∧
    (∀ rest, s.rx = 43 :: (data ++ 43 :: rest) →
      write_sector sector data s =
        (Except.ok (),
         ⟨rest, s.log ++ [Event.tx [119, sector], Event.tx data, Event.sleep,
           Event.rx [43], Event.tx [114, sector], Event.rx data,
           Event.rx [43]]⟩)) ∧
    ((write_sector sector data s).1 = Except.ok () →
      (s.rx.drop 1).take 256 = data) := by
  refine ⟨?_, ?_, ?_, ?_⟩
  · intro hack
    rw [write_sector_eq sector data s h1 h2 h3, if_pos hack]
  · intro rb rest hrx hrb hne
    obtain ⟨rx0, log0⟩ := s
    simp only at hrx
    subst hrx
    have hd1 : (((43 : Nat) :: (rb ++ 43 :: rest)).drop 1) = rb ++ 43 :: rest := rfl
    rw [write_sector_eq sector data _ h1 h2 h3]
    dsimp only
    rw [hd1]
    rw [if_neg (by simp), if_neg (by simp [List.drop_left' hrb]),
      if_pos (by simp [List.take_left' hrb, hne])]
    have hd257 : (rb ++ 43 :: rest).drop 257 = rest := by
      have h0 : ((rb ++ 43 :: rest).drop 256).drop 1 = rest := by
        rw [List.drop_left' hrb]
        rfl
      rw [List.drop_drop] at h0
      simpa using h0
    rw [List.take_left' hrb, hd257]
  · intro rest hrx
    obtain ⟨rx0, log0⟩ := s
    simp only at hrx
    subst hrx
    exact write_sector_ok sector data rest log0 h1 h2 h3
  · rw [write_sector_eq sector data s h1 h2 h3]
    by_cases hA : s.rx.take 1 ≠ [43]
    · rw [if_pos hA]
      intro hcontra
      cases hcontra
    · rw [if_neg hA]
      by_cases hB : ((s.rx.drop 1).drop 256).take 1 ≠ [43]
      · rw [if_pos hB]
        intro hcontra
        cases hcontra
      · rw [if_neg hB]
        by_cases hC : (s.rx.drop 1).take 256 ≠ data
        · rw [if_pos hC]
          intro hcontra
          cases hcontra
        · intro _
          exact not_not.mp hC

/-- C7 witness: sector 7 with 256-byte data, a correct acknowledgment and
a matching read-back succeed with the full event trace. -/
theorem write_sector_protocol_witness :
    (7 : Nat) ≠ 0 ∧ (7 : Nat) < 256 ∧
    (List.replicate 256 (9 : Nat)).length = 256 ∧
    write_sector 7 (List.replicate 256 9)
      ⟨43 :: (List.replicate 256 9 ++ 43 :: []), []⟩ =
      (Except.ok (),
       ⟨[], [Event.tx [119, 7], Event.tx (List.replicate 256 9), Event.sleep,
         Event.rx [43], Event.tx [114, 7], Event.rx (List.replicate 256 9),
         Event.rx [43]]⟩) := by
  refine ⟨by norm_num, by norm_num, by simp, ?_⟩
  have h := (write_sector_protocol 7 (List.replicate 256 9)
    ⟨43 :: (List.replicate 256 9 ++ 43 :: []), []⟩
    (by norm_num) (by norm_num) (by simp)).2.2.1 [] rfl
  simpa using h

lemma write_loop_congr (f : Nat → Nat) (d1 d2 : Nat → List Nat) :
    ∀ (xs : List Nat) (s : Serial), (∀ x ∈ xs, d1 x = d2 x) →
    write_loop xs f d1 s = write_loop xs f d2 s := by
  intro xs
  induction xs with
  | nil =>
    intro s h
    rfl
  | cons x xs ih =>
    intro s h
    simp only [write_loop, h x (by simp)]
    rcases write_sector (f x) (d2 x) s with ⟨r, s2⟩
    rcases r with e | u
    · rfl
    · exact ih s2 (fun y hy => h y (by simp [hy]))

/-- C3: the start sector for a custom slot `i` is `2 + i*16 + 112` (all
7×16 = 112 game sectors are reserved before the custom block); in
particular custom slot 3 starts at sector 162, and writing a 2048-byte ROM
to custom slot 3 over an all-acknowledging link issues exactly 16 sector
writes, to sectors 162 through 177 in ascending order, with consecutive
256-byte slices of the padded ROM. -/
theorem custom_slot_start_sector :
    (∀ i : Nat, slot_sector SlotKind.custom i = 2 + i * 16 + 112) ∧
    slot_sector SlotKind.custom 3 = 162 ∧
    program_rom SlotKind.custom 3 (List.replicate 2048 0)
      ⟨successRx (List.range 16)
        (fun x => (((List.replicate 2048 0 ++ List.replicate 2048 255 :
          List Nat)).drop (x * 256)).take 256), []⟩ =
      (Except.ok (),
       ⟨[], successEvents (List.range 16) (fun x => 162 + x)
         (fun x => (((List.replicate 2048 0 ++ List.replicate 2048 255 :
           List Nat)).drop (x * 256)).take 256)⟩) ∧
    writes_issued (successEvents (List.range 16) (fun x => 162 + x)
      (fun x => (((List.replicate 2048 0 ++ List.replicate 2048 255 :
        List Nat)).drop (x * 256)).take 256)) = List.range' 162 16 := by
  have hlen : ((List.replicate 2048 0 ++ List.replicate 2048 255 :
      List Nat)).length = 4096 := by
    rw [List.length_append, List.length_replicate, List.length_replicate]
  have hval : ∀ x ∈ List.range 16, (162 + x) ≠ 0 ∧ (162 + x) < 256 ∧
      ((((List.replicate 2048 0 ++ List.replicate 2048 255 :
        List Nat)).drop (x * 256)).take 256).length = 256 := by
    intro x hx
    have hx16 : x < 16 := List.mem_range.mp hx
    refine ⟨by omega, by omega, ?_⟩
    simp only [List.length_take, List.length_drop, hlen]
    omega
  refine ⟨fun i => rfl, rfl, ?_, ?_⟩
  · have hn : normalize_rom (List.replicate 2048 0) =
        Except.ok (List.replicate 2048 0 ++ List.replicate 2048 255) := by
      simp only [normalize_rom, List.length_replicate, List.length_append]
      norm_num
    simp only [program_rom, hn]
    show write_rom 162 _ _ = _
    simp only [write_rom]
    have h := write_loop_all_ok (fun x => 162 + x)
      (fun x => (((List.replicate 2048 0 ++ List.replicate 2048 255 :
        List Nat)).drop (x * 256)).take 256) (List.range 16) [] [] hval
    rw [List.append_nil, List.nil_append] at h
    rw [h]
  · rw [writes_issued_successEvents _ _ (List.range 16)
      (fun x hx => (hval x hx).2.2)]
    rw [List.range'_eq_map_range]

lemma write_loop_cons_step (x : Nat) (xs : List Nat) (f : Nat → Nat)
    (d : Nat → List Nat) (s s2 : Serial)
    (h : write_sector (f x) (d x) s = (Except.ok (), s2)) :
    write_loop (x :: xs) f d s = write_loop xs f d s2 := by
  simp only [write_loop, h]

/-- C8: `write_image` rejects any input whose length is not exactly 65536
bytes with the link untouched; on a 65536-byte input it runs `write_sector`
for sectors 0 through 255 in ascending order on consecutive 256-byte
slices, which over an all-acknowledging link transmits write commands for
exactly the sectors 1..255 in ascending order — never sector 0 — and the
first 256 input bytes (the sector-0 slice) have no effect on the link
behavior at all. -/
theorem write_image_restores (img img2 : List Nat) (s : Serial) :
    (img.length ≠ 65536 →
      write_image img s = (Except.error PyError.SystemExit, s)) ∧
    (img.length = 65536 →
      write_image img
        ⟨successRx (List.range' 1 255)
          (fun x => (img.drop (x * 256)).take 256), []⟩ =
        (Except.ok (),
         ⟨[], successEvents (List.range' 1 255) (fun x => x)
           (fun x => (img.drop (x * 256)).take 256)⟩) ∧
      writes_issued (successEvents (List.range' 1 255) (fun x => x)
        (fun x => (img.drop (x * 256)).take 256)) = List.range' 1 255 ∧
      (0 : Nat) ∉ writes_issued (successEvents (List.range' 1 255)
        (fun x => x) (fun x => (img.drop (x * 256)).take 256))) ∧
    (img.length = 65536 → img2.length = 65536 →
      img.drop 256 = img2.drop 256 →
      write_image img s = write_image img2 s) := by
  refine ⟨?_, ?_, ?_⟩
  · intro h
    simp [write_image, h]
  · intro h
    have hne : ¬(img.length ≠ 65536) := by simp [h]
    have hval : ∀ x ∈ List.range' 1 255, x ≠ 0 ∧ x < 256 ∧
        ((img.drop (x * 256)).take 256).length = 256 := by
      intro x hx
      have hx2 := List.mem_range'_1.mp hx
      refine ⟨by omega, by omega, ?_⟩
      simp only [List.length_take, List.length_drop, h]
      omega
    refine ⟨?_, ?_, ?_⟩
    · unfold write_image
      rw [if_neg hne]
      rw [show List.range 256 = 0 :: List.range' 1 255 from by
        rw [List.range_eq_range']; rfl]
      rw [write_loop_cons_step 0 (List.range' 1 255) (fun x => x)
        (fun x => (img.drop (x * 256)).take 256) _ _ (by
          unfold write_sector
          rw [if_pos (Or.inl rfl)])]
      have hw := write_loop_all_ok (fun x => x)
        (fun x => (img.drop (x * 256)).take 256) (List.range' 1 255) [] [] hval
      rw [List.append_nil, List.nil_append] at hw
      rw [hw]
    · rw [writes_issued_successEvents _ _ (List.range' 1 255)
        (fun x hx => (hval x hx).2.2)]
      exact List.map_id' _
    · rw [writes_issued_successEvents _ _ (List.range' 1 255)
        (fun x hx => (hval x hx).2.2), List.map_id']
      intro hmem
      have := List.mem_range'_1.mp hmem
      omega
  · intro h1 h2 hdrop
    have hne1 : ¬(img.length ≠ 65536) := by simp [h1]
    have hne2 : ¬(img2.length ≠ 65536) := by simp [h2]
    unfold write_image
    rw [if_neg hne1, if_neg hne2]
    rw [show List.range 256 = 0 :: List.range' 1 255 from by
      rw [List.range_eq_range']; rfl]
    rw [write_loop_cons_step 0 (List.range' 1 255) (fun x => x)
      (fun x => (img.drop (x * 256)).take 256) s s (by
        unfold write_sector
        rw [if_pos (Or.inl rfl)])]
    rw [write_loop_cons_step 0 (List.range' 1 255) (fun x => x)
      (fun x => (img2.drop (x * 256)).take 256) s s (by
        unfold write_sector
        rw [if_pos (Or.inl rfl)])]
    apply write_loop_congr
    intro x hx
    have hx2 := List.mem_range'_1.mp hx
    have hxe : x * 256 - 256 + 256 = x * 256 := by omega
    have e1 : img.drop (x * 256) = (img.drop 256).drop (x * 256 - 256) := by
      rw [List.drop_drop]
      congr 1
      omega
    have e2 : img2.drop (x * 256) = (img2.drop 256).drop (x * 256 - 256) := by
      rw [List.drop_drop]
      congr 1
      omega
    rw [e1, e2, hdrop]

/-- C8 witness: the all-ones 65536-byte image is written over an
all-acknowledging link, issuing sector-write commands 1..255 and none for
sector 0; and a 10-byte input is rejected with the link untouched. -/
theorem write_image_restores_witness :
    ((List.replicate 10 (0 : Nat)).length ≠ 65536 ∧
      write_image (List.replicate 10 0) ⟨[], []⟩ =
        (Except.error PyError.SystemExit, ⟨[], []⟩)) ∧
    ((List.replicate 65536 (1 : Nat)).length = 65536 ∧
      writes_issued (successEvents (List.range' 1 255) (fun x => x)
        (fun x => ((List.replicate 65536 (1 : Nat)).drop (x * 256)).take 256)) =
        List.range' 1 255) :=
  ⟨⟨by rw [List.length_replicate]; norm_num,
    (write_image_restores (List.replicate 10 0) (List.replicate 10 0)
      ⟨[], []⟩).1 (by rw [List.length_replicate]; norm_num)⟩,
   ⟨by rw [List.length_replicate],
    ((write_image_restores (List.replicate 65536 1) (List.replicate 65536 1)
      ⟨[], []⟩).2.1 (by rw [List.length_replicate])).2.1⟩⟩

/-- C9: configuration codec round-trip — for any complete configuration of
byte values, the encoded sector is the 8 volume bytes, then the 8
sample-rate-divisor bytes, then 240 bytes of `0xFF`; in particular
encoding volumes 0..7 with divisors 10..17 yields
`[0,1,2,3,4,5,6,7,10,11,12,13,14,15,16,17]` followed by 240 `0xFF` bytes,
and decoding that sector recovers both 8-entry collections exactly. -/
theorem configuration_roundtrip :
    (∀ (vol spd : Nat → Int),
      (∀ x, x < 8 → 0 ≤ vol x ∧ vol x < 256) →
      (∀ x, x < 8 → 0 ≤ spd x ∧ spd x < 256) →
      encode_configuration vol spd = Except.ok
        (((List.range 8).map (fun x => (vol x).toNat)) ++
         ((List.range 8).map (fun x => (spd x).toNat)) ++
         List.replicate 240 255)) ∧
    encode_configuration (fun x => (x : Int)) (fun x => (10 + x : Int)) =
      Except.ok ([0, 1, 2, 3, 4, 5, 6, 7, 10, 11, 12, 13, 14, 15, 16, 17] ++
        List.replicate 240 255) ∧
    decode_user_volume
      ([0, 1, 2, 3, 4, 5, 6, 7, 10, 11, 12, 13, 14, 15, 16, 17] ++
        List.replicate 240 255) = [0, 1, 2, 3, 4, 5, 6, 7] ∧
    decode_user_speed
      ([0, 1, 2, 3, 4, 5, 6, 7, 10, 11, 12, 13, 14, 15, 16, 17] ++
        List.replicate 240 255) = [10, 11, 12, 13, 14, 15, 16, 17] :=
  ⟨encode_configuration_eq, by rfl, by rfl, by rfl⟩

/-- C9 witness: the general encoding shape at the constant configuration
with all volumes 3 and all divisors 4. -/
theorem configuration_roundtrip_witness :
    (∀ x : Nat, x < 8 → (0 : Int) ≤ 3 ∧ (3 : Int) < 256) ∧
    (∀ x : Nat, x < 8 → (0 : Int) ≤ 4 ∧ (4 : Int) < 256) ∧
    encode_configuration (fun _ => (3 : Int)) (fun _ => (4 : Int)) =
      Except.ok (((List.range 8).map (fun _ => (3 : Int).toNat)) ++
        ((List.range 8).map (fun _ => (4 : Int).toNat)) ++
        List.replicate 240 255) :=
  ⟨fun _ _ => ⟨by norm_num, by norm_num⟩,
   fun _ _ => ⟨by norm_num, by norm_num⟩,
   configuration_roundtrip.1 (fun _ => (3 : Int)) (fun _ => (4 : Int))
     (fun _ _ => ⟨by norm_num, by norm_num⟩)
     (fun _ _ => ⟨by norm_num, by norm_num⟩)⟩
